import Mathlib

/-!
Shallow embedding of the aggregation pipeline of `src/rapor.py`.

Modelling conventions, used throughout:
* Python strings are lists of characters (`Str`); `len` is `List.length`.
* UTC timestamps (`datetime` values) are integers counting seconds; a
  `timedelta(days=g)` is `g * 86400` seconds, exact because the pipeline works
  in UTC.  Aware `datetime` comparison is integer comparison.
* Network I/O and library calls that touch the outside world are passed in as
  explicit oracle arguments: `ora` is the text `BeautifulSoup.get_text` returns
  for a fragment (after dropping script/style/noscript), `fm` is the string
  `meta_description_getir` would return for a link, an `ImgResponse` is the
  HTTP response an image GET produced, and `verifyOk` is the verdict of
  `PIL.Image.verify` on a byte payload.  The pure control flow around those
  calls is translated literally from the source.
* `feedparser` results are `Entry` records; an absent attribute (or one whose
  value is falsy where the source tests truthiness) is `none`.
-/

namespace Rapor

/-- Python strings, modelled as lists of characters. -/
abbrev Str := List Char

/-- Whitespace as matched by Python's `\s` and `str.strip()`, restricted to the
ASCII range (all concrete inputs in this development are ASCII apart from the
ellipsis character, which is not whitespace). -/
def isSpace (c : Char) : Bool :=
  c = ' ' || c = '\t' || c = '\n' || c = '\r' || c = '\x0b' || c = '\x0c'

/-- Python `str.strip()`: remove whitespace from both ends. -/
def pyStrip (s : Str) : Str :=
  ((s.dropWhile isSpace).reverse.dropWhile isSpace).reverse

/-- Python `str.rstrip()`: remove trailing whitespace. -/
def pyRstrip (s : Str) : Str :=
  (s.reverse.dropWhile isSpace).reverse

/-- Python `str.lower()`, restricted to ASCII case folding. -/
def lowerStr (s : Str) : Str :=
  s.map Char.toLower

/-- Python `re.sub(r"\s+", " ", s)`: collapse each maximal whitespace run to a
single space. -/
def collapseWS : Str → Str
  | [] => []
  | [c] => if isSpace c then [' '] else [c]
  | c :: d :: cs =>
    if isSpace c then
      (if isSpace d then collapseWS (d :: cs) else ' ' :: collapseWS (d :: cs))
    else c :: collapseWS (d :: cs)

/-- Model of Python `html.unescape`, restricted to the named character
references appearing in this development (`amp`, `lt`, `gt`).  Like the stdlib
function it makes a single left-to-right pass, replacing each reference once
and never rescanning replaced text, and it leaves strings without `'&'`
untouched. -/
def unescape : Str → Str
  | [] => []
  | '&' :: 'a' :: 'm' :: 'p' :: ';' :: rest => '&' :: unescape rest
  | '&' :: 'l' :: 't' :: ';' :: rest => '<' :: unescape rest
  | '&' :: 'g' :: 't' :: ';' :: rest => '>' :: unescape rest
  | c :: cs => c :: unescape cs

/-- `temiz_metin` (rapor.py:62-67): falsy input gives `""`; otherwise unescape
HTML entities, collapse whitespace runs, strip the ends. -/
def temiz_metin (s : Str) : Str :=
  if s = [] then [] else pyStrip (collapseWS (unescape s))

/-- `html_to_text` (rapor.py:70-76): falsy input gives `""`; otherwise the
visible text `ora` extracted from the parsed fragment (script/style/noscript
removed) is passed through `temiz_metin`. -/
def html_to_text (ora : Str → Str) (s : Str) : Str :=
  if s = [] then [] else temiz_metin (ora s)

/-- One parsed feed entry (`feedparser` result).  A field is `none` when the
attribute is missing or falsy where the source tests truthiness.
`published_parsed`/`updated_parsed` hold the entry's timestamp already
converted to UTC seconds; the `time.mktime`/`fromtimestamp` conversion
(rapor.py:84) is modelled as total on the struct_time values in scope. -/
structure Entry where
  title : Option Str
  link : Option Str
  summary : Option Str
  description : Option Str
  published_parsed : Option Int
  updated_parsed : Option Int
deriving DecidableEq, Repr

/-- Truthiness of an optional string attribute: present and non-empty. -/
def truthy : Option Str → Bool
  | some s => !s.isEmpty
  | none => false

/-- `entry_tarihi` (rapor.py:79-87): try `published_parsed` then
`updated_parsed`; the first present field wins, `none` when neither is. -/
def entry_tarihi (e : Entry) : Option Int :=
  match e.published_parsed with
  | some t => some t
  | none =>
    match e.updated_parsed with
    | some t => some t
    | none => none

/-- The raw summary field `ozet_uret` starts from (rapor.py:122-126):
`entry.summary` if present and truthy, else `entry.description` if present and
truthy, else `""`. -/
def ozet_raw (e : Entry) : Str :=
  if truthy e.summary then e.summary.getD []
  else if truthy e.description then e.description.getD [] else []

/-- The condition of rapor.py:130 under which `ozet_uret` calls
`meta_description_getir`: the page-scrape fallback is attempted exactly when
this is `true`. -/
def ozet_fetch_attempted (ora : Str → Str) (e : Entry) (sayfadan_getir : Bool) : Bool :=
  sayfadan_getir &&
    ((html_to_text ora (ozet_raw e)).isEmpty ||
      decide ((html_to_text ora (ozet_raw e)).length < 80))

/-- The summary text of `ozet_uret` just before the final `temiz_metin` and
truncation (rapor.py:122-133).  `fm link` is the string the network call
`meta_description_getir(link)` returned. -/
def ozet_base (ora fm : Str → Str) (e : Entry) (link : Str) (sayfadan_getir : Bool) : Str :=
  let text := html_to_text ora (ozet_raw e)
  if ozet_fetch_attempted ora e sayfadan_getir then
    let fetched := fm link
    if (!fetched.isEmpty) && decide (text.length < fetched.length) then fetched else text
  else text

/-- The final truncation of `ozet_uret` (rapor.py:136-137):
`text[: max_len - 1].rstrip() + "…"` when `len(text) > max_len`. -/
def cap_ellipsis (max_len : Nat) (text : Str) : Str :=
  if max_len < text.length then pyRstrip (text.take (max_len - 1)) ++ ['…'] else text

/-- `ozet_uret` (rapor.py:121-138): tier-1 embedded text, optional page-scrape
fallback, then `temiz_metin` and the cap. -/
def ozet_uret (ora fm : Str → Str) (e : Entry) (link : Str) (max_len : Nat)
    (sayfadan_getir : Bool) : Str :=
  cap_ellipsis max_len (temiz_metin (ozet_base ora fm e link sayfadan_getir))

/-- The `Haber` dataclass (rapor.py:33-40). -/
structure Haber where
  kaynak : Str
  baslik : Str
  link : Str
  tarih : Int
  ozet : Str
  entry : Entry
deriving DecidableEq, Repr

/-- `son_gunleri_filtrele` (rapor.py:141-143).  `simdi_utc()` is the `now`
argument; `timedelta(days=gun)` is `gun * 86400` seconds; the `x.tarih and`
conjunct is dropped because a `datetime` is always truthy. -/
def son_gunleri_filtrele (items : List Haber) (gun : Int) (now : Int) : List Haber :=
  items.filter fun x => decide (now - gun * 86400 ≤ x.tarih)

/-- The deduplication key of rapor.py:150:
`(it.baslik.lower().strip(), it.link.strip())`. -/
def anahtar (it : Haber) : Str × Str :=
  (pyStrip (lowerStr it.baslik), pyStrip it.link)

/-- The loop of `tekrarlari_temizle` (rapor.py:146-155), with the `seen` set
modelled as the list of keys added so far. -/
def tekrarlari_temizle_aux : List Haber → List (Str × Str) → List Haber
  | [], _ => []
  | it :: rest, seen =>
    if anahtar it ∈ seen then tekrarlari_temizle_aux rest seen
    else it :: tekrarlari_temizle_aux rest (anahtar it :: seen)

/-- `tekrarlari_temizle` (rapor.py:146-155): keep the first item for each key. -/
def tekrarlari_temizle (items : List Haber) : List Haber :=
  tekrarlari_temizle_aux items []

/-- Insert one item into a list already sorted by `tarih` descending, before
the first element whose `tarih` is not larger.  Helper realizing
`items.sort(key=lambda x: x.tarih, reverse=True)` (rapor.py:489): Python's
sort is the unique stable sort, and `sortDesc` below is proved to be a
permutation, sorted non-increasingly, and tie-stable, which pins that function
down. -/
def insList (x : Haber) : List Haber → List Haber
  | [] => [x]
  | y :: ys => if y.tarih ≤ x.tarih then x :: y :: ys else y :: insList x ys

/-- Stable sort by `tarih` descending, modelling rapor.py:489. -/
def sortDesc : List Haber → List Haber
  | [] => []
  | x :: xs => insList x (sortDesc xs)

/-- The per-source loop of `tumunu_cek` (rapor.py:460-485): walk the feed's
entries, stop once `count >= limit`, drop entries without a date or with an
empty normalized title or link, and build a `Haber` for the rest. -/
def cek_loop (ora fm : Str → Str) (sayfadan_getir : Bool) (kaynak_adi : Str)
    (limit : Int) : List Entry → Int → List Haber
  | [], _ => []
  | e :: rest, count =>
    if limit ≤ count then []
    else
      match entry_tarihi e with
      | none => cek_loop ora fm sayfadan_getir kaynak_adi limit rest count
      | some tarih =>
        if temiz_metin (e.title.getD []) = [] || temiz_metin (e.link.getD []) = [] then
          cek_loop ora fm sayfadan_getir kaynak_adi limit rest count
        else
          { kaynak := kaynak_adi, baslik := temiz_metin (e.title.getD []),
            link := temiz_metin (e.link.getD []), tarih := tarih,
            ozet := ozet_uret ora fm e (temiz_metin (e.link.getD [])) 420 sayfadan_getir,
            entry := e } ::
            cek_loop ora fm sayfadan_getir kaynak_adi limit rest (count + 1)

/-- The accumulated candidate list of `tumunu_cek` before filtering
(rapor.py:454-485): per-source loops in source order, concatenated.  `feeds`
maps each source name to the entry list `feedparser.parse` produced for it. -/
def raw_items (ora fm : Str → Str) (feeds : List (Str × List Entry)) (limit : Int)
    (sayfadan_getir : Bool) : List Haber :=
  (feeds.map fun p => cek_loop ora fm sayfadan_getir p.1 limit p.2 0).flatten

/-- `tumunu_cek` (rapor.py:453-490): collect candidates, filter by the
lookback window, deduplicate, sort by date descending. -/
def tumunu_cek (ora fm : Str → Str) (feeds : List (Str × List Entry)) (gun : Int)
    (limit : Int) (sayfadan_getir : Bool) (now : Int) : List Haber :=
  sortDesc (tekrarlari_temizle (son_gunleri_filtrele (raw_items ora fm feeds limit sayfadan_getir) gun now))

/-- Python's `in` operator on strings: `needle` occurs as a contiguous
substring of the second argument. -/
def isSubstr (needle : Str) : Str → Bool
  | [] => needle.isEmpty
  | c :: rest => needle.isPrefixOf (c :: rest) || isSubstr needle rest

/-- The image GET response `gorsel_indir_tmp` works on.  `ok` is `false` when
the request or `raise_for_status` raised (any fetch error); `ctype` is the
Content-Type header (`none` when absent); `chunks` are the chunks of the
response body — the request is issued with `stream=True`, so the body arrives
as a chunk stream, and evaluating `r.content` reads it whole. -/
structure ImgResponse where
  ctype : Option Str
  chunks : List (List Nat)
  ok : Bool
deriving DecidableEq, Repr

/-- `gorsel_indir_tmp` (rapor.py:207-244).  `verifyOk` models
`PIL.Image.open(...).verify()` (`false` = raises).  The result is the
temp-file extension together with the bytes written to the file — exactly the
downloaded payload — or `none` where the source returns `""`.  The size
ceiling is tested on `r.content` (rapor.py:225), i.e. after the whole body has
been read. -/
def gorsel_indir_tmp (verifyOk : List Nat → Bool) (image_url : Str)
    (resp : ImgResponse) : Option (Str × List Nat) :=
  if image_url = [] then none
  else if resp.ok = false then none
  else if isSubstr "image".toList (lowerStr (resp.ctype.getD [])) = false then none
  else if resp.chunks.flatten = [] then none
  else if 6 * 1024 * 1024 < (resp.chunks.flatten).length then none
  else if verifyOk resp.chunks.flatten = false then none
  else some
    (if isSubstr "png".toList (lowerStr (resp.ctype.getD [])) = true then ".png".toList
     else if isSubstr "webp".toList (lowerStr (resp.ctype.getD [])) = true then ".webp".toList
     else ".jpg".toList, resp.chunks.flatten)

/-- The number of response-body bytes the download inside `gorsel_indir_tmp`
consumes.  `r.content` (rapor.py:220) is evaluated once the status and
content-type checks have passed, and with `stream=True` evaluating `.content`
reads the entire remaining body: nothing stops the read at the size ceiling. -/
def gorsel_bytes_read (image_url : Str) (resp : ImgResponse) : Nat :=
  if image_url = [] then 0
  else if resp.ok = false then 0
  else if isSubstr "image".toList (lowerStr (resp.ctype.getD [])) = false then 0
  else (resp.chunks.flatten).length

/-- `karta_gorsel_ekle` (rapor.py:247-296): discover an image URL (the result
of `gorsel_url_bul`, a network call, is the oracle `urlOf`), download and
validate it, and add it to the card.  `respOf` gives the GET response for a
URL and `addOk` models the docx insertion try-block (`false` = it raised).
Returns whether an image was added; the caller ignores the result. -/
def karta_gorsel_ekle (verifyOk : List Nat → Bool) (urlOf : Entry → Str → Str)
    (respOf : Str → ImgResponse) (addOk : Bool) (e : Entry) (link : Str) : Bool :=
  let img_url := urlOf e link
  if img_url = [] then false
  else
    match gorsel_indir_tmp verifyOk img_url (respOf img_url) with
    | none => false
    | some _ => addOk

/-- One rendered news card of `docx_olustur` (rapor.py:395-445): source and
date panel, title, optional image, summary (an em dash when empty,
rapor.py:437), link. -/
structure Card where
  kaynak : Str
  tarih : Int
  baslik : Str
  hasImage : Bool
  ozet : Str
  link : Str
deriving DecidableEq, Repr

/-- The card list `docx_olustur` renders (rapor.py:395-445): exactly one card
per item, built unconditionally — the image outcome only decides `hasImage`. -/
def docx_cards (verifyOk : List Nat → Bool) (urlOf : Entry → Str → Str)
    (respOf : Str → ImgResponse) (addOk : Bool) (items : List Haber) : List Card :=
  items.map fun it =>
    { kaynak := it.kaynak, tarih := it.tarih, baslik := it.baslik,
      hasImage := karta_gorsel_ekle verifyOk urlOf respOf addOk it.entry it.link,
      ozet := if it.ozet = [] then "—".toList else it.ozet, link := it.link }

/-- The item identity a card carries: (source, title, link, date). -/
def haberCore (h : Haber) : Str × Str × Str × Int :=
  (h.kaynak, h.baslik, h.link, h.tarih)

/-- The item identity of a rendered card: (source, title, link, date). -/
def cardCore (c : Card) : Str × Str × Str × Int :=
  (c.kaynak, c.baslik, c.link, c.tarih)

/-- Modelled from the spec: the AI-rewrite tier of summary resolution (spec
§4.4 tier 3) is absent from `src/rapor.py`; this definition follows the
spec's words.  `credential` is the external summarization credential,
`body` the separately fetched full-article body (`none` when unavailable),
`minBody` the "sufficiently long" threshold, and `endpoint b` the text a
successful endpoint call returns for body `b` (`none` on any transport or
parse failure).  On a missing credential, missing/short body, or failed call
the tier yields empty text. -/
def ai_tier (credential : Option Str) (endpoint : Str → Option Str)
    (body : Option Str) (minBody : Nat) : Str :=
  match credential, body with
  | some _, some b => if minBody ≤ b.length then (endpoint b).getD [] else []
  | _, _ => []

/-- Modelled from the spec: summary resolution with the AI tier of §4.4
inserted between the tier-1/2 text and the final cleanup/truncation.  When the
AI tier yields empty text the pipeline silently falls back to the prior best
text, i.e. to exactly what `ozet_uret` computes. -/
def resolve_summary_ai (ora fm : Str → Str) (credential : Option Str)
    (endpoint : Str → Option Str) (body : Option Str) (minBody : Nat) (e : Entry)
    (link : Str) (max_len : Nat) (sayfadan_getir : Bool) : Str :=
  let t3 := ai_tier credential endpoint body minBody
  if t3 = [] then cap_ellipsis max_len (temiz_metin (ozet_base ora fm e link sayfadan_getir))
  else cap_ellipsis max_len (temiz_metin t3)

/-- Concrete feed entry used by witnesses: published at time 1000, title
`Alpha`, link `L`. -/
def wEntry : Entry :=
  { title := some "Alpha".toList, link := some "L".toList, summary := none,
    description := none, published_parsed := some 1000, updated_parsed := none }

/-- Concrete dateless feed entry used by witnesses. -/
def wBad : Entry :=
  { title := some "T".toList, link := some "LB".toList, summary := none,
    description := none, published_parsed := none, updated_parsed := none }

/-- The item `tumunu_cek` builds from `wEntry` (summary resolution runs with
empty oracles and no page fetch, so the summary is empty). -/
def wHaber : Haber :=
  { kaynak := "A".toList, baslik := "Alpha".toList, link := "L".toList,
    tarih := 1000, ozet := [], entry := wEntry }

/-- Summary string of the C4 counterexample entry: a quadruply-escaped
ampersand entity, 413 letters, an ellipsis placed right at the truncation
point, and a ten-letter tail pushing the text over the cap. -/
def cS : Str :=
  "&amp;amp;amp;amp;".toList ++ List.replicate 413 'a' ++ "…".toList ++
    List.replicate 10 'b'

/-- The C4 counterexample entry: its embedded summary is `cS`. -/
def c4e : Entry :=
  { title := none, link := none, summary := some cS, description := none,
    published_parsed := none, updated_parsed := none }

/-- The summary `ozet_uret` produces for `c4e`: one surviving raw entity and a
double ellipsis at the end. -/
def cR : Str :=
  "&amp;".toList ++ List.replicate 413 'a' ++ ['…', '…']

/-- Oversized image response: a single 6 MiB + 1 byte body chunk. -/
def bigResp : ImgResponse :=
  { ctype := some "image/jpeg".toList, chunks := [List.replicate 6291457 0], ok := true }

/-- Well-formed PNG-typed image response used by C9. -/
def pngResp : ImgResponse :=
  { ctype := some "image/png".toList, chunks := [[137, 80, 78, 71, 1]], ok := true }

/-- Well-formed WEBP-typed image response used by C9. -/
def webpResp : ImgResponse :=
  { ctype := some "image/webp".toList, chunks := [[82, 73, 70, 70, 2]], ok := true }

/-- Non-image response (HTML content type) used by the C8 witness. -/
def badResp : ImgResponse :=
  { ctype := some "text/html".toList, chunks := [[1, 2]], ok := true }

/-- Inserting preserves the multiset of items. -/
theorem insList_perm (x : Haber) (l : List Haber) : List.Perm (insList x l) (x :: l) := by
  induction l with
  | nil => simp [insList]
  | cons y ys ih =>
    simp only [insList]
    split
    · exact List.Perm.refl _
    · exact (ih.cons y).trans (List.Perm.swap x y ys)

/-- The sort is a permutation. -/
theorem sortDesc_perm (l : List Haber) : List.Perm (sortDesc l) l := by
  induction l with
  | nil => simp [sortDesc]
  | cons x xs ih => exact (insList_perm x (sortDesc xs)).trans (ih.cons x)

/-- Inserting into a list sorted by date descending keeps it sorted. -/
theorem pairwise_insList (x : Haber) (l : List Haber)
    (h : l.Pairwise fun a b => b.tarih ≤ a.tarih) :
    (insList x l).Pairwise fun a b => b.tarih ≤ a.tarih := by
  induction l with
  | nil => simp [insList]
  | cons y ys ih =>
    rcases List.pairwise_cons.mp h with ⟨hy, hys⟩
    simp only [insList]
    split
    · rename_i hle
      refine List.pairwise_cons.mpr ⟨?_, h⟩
      intro z hz
      rcases List.mem_cons.mp hz with rfl | hz'
      · exact hle
      · exact le_trans (hy z hz') hle
    · rename_i hgt
      push_neg at hgt
      refine List.pairwise_cons.mpr ⟨?_, ih hys⟩
      intro z hz
      rcases List.mem_cons.mp ((insList_perm x ys).mem_iff.mp hz) with rfl | hz'
      · exact le_of_lt hgt
      · exact hy z hz'

/-- The sort output is non-increasing in `tarih`. -/
theorem pairwise_sortDesc (l : List Haber) :
    (sortDesc l).Pairwise fun a b => b.tarih ≤ a.tarih := by
  induction l with
  | nil => simp [sortDesc]
  | cons x xs ih => exact pairwise_insList x (sortDesc xs) ih

/-- Inserting an item either prepends it to the date class it belongs to or
leaves every date class untouched: the key stability fact. -/
theorem filter_insList (x : Haber) (l : List Haber) (t : Int) :
    (insList x l).filter (fun y => decide (y.tarih = t)) =
      if x.tarih = t then x :: l.filter (fun y => decide (y.tarih = t))
      else l.filter fun y => decide (y.tarih = t) := by
  induction l with
  | nil => by_cases hx : x.tarih = t <;> simp [insList, hx]
  | cons y ys ih =>
    simp only [insList]
    split
    · rename_i hle
      by_cases hx : x.tarih = t <;> simp [List.filter_cons, hx]
    · rename_i hgt
      push_neg at hgt
      by_cases hx : x.tarih = t
      · have hy : ¬(y.tarih = t) := by omega
        simp [List.filter_cons, hy, ih, hx]
      · by_cases hy : y.tarih = t <;> simp [List.filter_cons, hy, ih, hx]

/-- Stability of the sort: each date class keeps its input order. -/
theorem sortDesc_filter (l : List Haber) (t : Int) :
    (sortDesc l).filter (fun y => decide (y.tarih = t)) =
      l.filter fun y => decide (y.tarih = t) := by
  induction l with
  | nil => rfl
  | cons x xs ih =>
    rw [sortDesc, filter_insList]
    by_cases hx : x.tarih = t <;> simp [List.filter_cons, hx, ih]

/-- Deduplication only keeps input items. -/
theorem mem_tekrarlari_aux {x : Haber} {l : List Haber} {seen : List (Str × Str)}
    (h : x ∈ tekrarlari_temizle_aux l seen) : x ∈ l := by
  induction l generalizing seen with
  | nil => simp [tekrarlari_temizle_aux] at h
  | cons it rest ih =>
    simp only [tekrarlari_temizle_aux] at h
    split at h
    · exact List.mem_cons_of_mem _ (ih h)
    · rcases List.mem_cons.mp h with rfl | h'
      · exact List.mem_cons_self _ _
      · exact List.mem_cons_of_mem _ (ih h')

/-- A key already in `seen` never reappears in the deduplicated output. -/
theorem filter_tekrarlari_aux_of_mem {k : Str × Str} {l : List Haber}
    {seen : List (Str × Str)} (hk : k ∈ seen) :
    (tekrarlari_temizle_aux l seen).filter (fun x => decide (anahtar x = k)) = [] := by
  induction l generalizing seen with
  | nil => rfl
  | cons it rest ih =>
    simp only [tekrarlari_temizle_aux]
    split
    · exact ih hk
    · rename_i hnot
      have hne : ¬(anahtar it = k) := fun he => hnot (he ▸ hk)
      rw [List.filter_cons_of_neg (by simpa using hne)]
      exact ih (List.mem_cons_of_mem _ hk)

/-- For a fresh key, deduplication keeps exactly the first input item with
that key. -/
theorem filter_tekrarlari_aux {k : Str × Str} {l : List Haber}
    {seen : List (Str × Str)} (hk : k ∉ seen) :
    (tekrarlari_temizle_aux l seen).filter (fun x => decide (anahtar x = k)) =
      (l.filter fun x => decide (anahtar x = k)).take 1 := by
  induction l generalizing seen with
  | nil => rfl
  | cons it rest ih =>
    simp only [tekrarlari_temizle_aux]
    split
    · rename_i hin
      have hne : ¬(anahtar it = k) := fun he => hk (he ▸ hin)
      rw [ih hk, List.filter_cons_of_neg (by simpa using hne)]
    · rename_i hnin
      by_cases he : anahtar it = k
      · rw [List.filter_cons_of_pos (by simpa using he),
          List.filter_cons_of_pos (by simpa using he),
          filter_tekrarlari_aux_of_mem (by simp [he])]
        simp
      · rw [List.filter_cons_of_neg (by simpa using he),
          List.filter_cons_of_neg (by simpa using he)]
        refine ih ?_
        simp only [List.mem_cons, not_or]
        exact ⟨fun hcon => he hcon.symm, hk⟩

/-- A permutation of a list with at most one element is that list. -/
theorem eq_of_perm_length_le_one {α : Type} {l1 l2 : List α} (h : List.Perm l1 l2)
    (hl : l2.length ≤ 1) : l1 = l2 := by
  match l2, hl with
  | [], _ => exact h.eq_nil
  | [a], _ => exact List.perm_singleton.mp h

/-- Every item a per-source loop emits carries its own entry, a date that
`entry_tarihi` assigned, and non-empty normalized title and link. -/
theorem mem_cek_loop {ora fm : Str → Str} {sg : Bool} {adi : Str} {limit : Int}
    {entries : List Entry} {count : Int} {h : Haber}
    (hm : h ∈ cek_loop ora fm sg adi limit entries count) :
    entry_tarihi h.entry = some h.tarih ∧
      h.baslik = temiz_metin (h.entry.title.getD []) ∧
      h.link = temiz_metin (h.entry.link.getD []) ∧
      h.baslik ≠ [] ∧ h.link ≠ [] := by
  induction entries generalizing count with
  | nil => simp [cek_loop] at hm
  | cons e rest ih =>
    rw [cek_loop] at hm
    split at hm
    · simp at hm
    · split at hm
      · exact ih hm
      · rename_i tarih hdate
        split at hm
        · exact ih hm
        · rename_i hne
          rcases List.mem_cons.mp hm with rfl | h'
          · refine ⟨hdate, rfl, rfl, ?_, ?_⟩ <;>
              simpa using fun hcon => hne (by simp [hcon])
          · exact ih h'

/-- Every accumulated candidate satisfies the per-entry guarantees. -/
theorem mem_raw_items {ora fm : Str → Str} {feeds : List (Str × List Entry)}
    {limit : Int} {sg : Bool} {h : Haber}
    (hm : h ∈ raw_items ora fm feeds limit sg) :
    entry_tarihi h.entry = some h.tarih ∧
      h.baslik = temiz_metin (h.entry.title.getD []) ∧
      h.link = temiz_metin (h.entry.link.getD []) ∧
      h.baslik ≠ [] ∧ h.link ≠ [] := by
  simp only [raw_items, List.mem_flatten, List.mem_map] at hm
  obtain ⟨_, ⟨p, hp, rfl⟩, hmem⟩ := hm
  exact mem_cek_loop hmem

end Rapor

namespace Rapor

/-- C1: items returned by the aggregation driver `tumunu_cek` are unique by
the key (lowercased, trimmed title, trimmed link): for every key `k`, the
output items with key `k` are exactly the first lookback-surviving candidate
with that key in source-then-feed order — two surviving candidates agreeing on
the key contribute exactly one output item, the earlier one, and later
duplicates are dropped silently. -/
theorem C1_dedup_first_wins (ora fm : Str → Str) (feeds : List (Str × List Entry))
    (gun limit : Int) (sg : Bool) (now : Int) (k : Str × Str) :
    (tumunu_cek ora fm feeds gun limit sg now).filter (fun x => decide (anahtar x = k)) =
      ((son_gunleri_filtrele (raw_items ora fm feeds limit sg) gun now).filter
        (fun x => decide (anahtar x = k))).take 1 := by
  unfold tumunu_cek tekrarlari_temizle
  refine eq_of_perm_length_le_one ?_ (List.length_take_le 1 _)
  have hfa : (tekrarlari_temizle_aux
        (son_gunleri_filtrele (raw_items ora fm feeds limit sg) gun now) []).filter
        (fun x => decide (anahtar x = k)) =
      ((son_gunleri_filtrele (raw_items ora fm feeds limit sg) gun now).filter
        (fun x => decide (anahtar x = k))).take 1 :=
    filter_tekrarlari_aux (by simp)
  rw [← hfa]
  exact (sortDesc_perm _).filter _

/-- C2: every item returned by the aggregation driver `tumunu_cek` with
lookback `gun` days satisfies `published_at ≥ now − gun` days; older items
never appear. -/
theorem C2_lookback (ora fm : Str → Str) (feeds : List (Str × List Entry))
    (gun limit : Int) (sg : Bool) (now : Int) (x : Haber)
    (hx : x ∈ tumunu_cek ora fm feeds gun limit sg now) :
    now - gun * 86400 ≤ x.tarih := by
  unfold tumunu_cek at hx
  have h1 := mem_tekrarlari_aux ((sortDesc_perm _).mem_iff.mp hx)
  unfold son_gunleri_filtrele at h1
  simpa using (List.mem_filter.mp h1).2

theorem C2_lookback_witness : (1000 : Int) - 1 * 86400 ≤ wHaber.tarih :=
  C2_lookback (fun s => s) (fun _ => []) [("A".toList, [wBad, wEntry])] 1 25 false 1000
    wHaber (by decide)

/-- C3: the list returned by the aggregation driver `tumunu_cek` is sorted
non-increasing by `published_at`, and the sort is stable: the output items of
any fixed timestamp appear in exactly the order the deduplicated
source-then-feed candidate list has them. -/
theorem C3_sorted_stable (ora fm : Str → Str) (feeds : List (Str × List Entry))
    (gun limit : Int) (sg : Bool) (now : Int) :
    ((tumunu_cek ora fm feeds gun limit sg now).Pairwise fun a b => b.tarih ≤ a.tarih) ∧
      ∀ t : Int,
        (tumunu_cek ora fm feeds gun limit sg now).filter (fun x => decide (x.tarih = t)) =
          (tekrarlari_temizle (son_gunleri_filtrele (raw_items ora fm feeds limit sg)
            gun now)).filter fun x => decide (x.tarih = t) :=
  ⟨pairwise_sortDesc _, fun t => sortDesc_filter _ t⟩

/-- C7: an entry with no parsable published/updated timestamp, or whose title
or link is empty after normalization, contributes no item to the output of
`tumunu_cek` regardless of the lookback window; and timestamp determination
tries `published` first, then `updated` — the first present field wins. -/
theorem C7_drop_bad_entries (ora fm : Str → Str) (feeds : List (Str × List Entry))
    (gun limit : Int) (sg : Bool) (now : Int) (e : Entry)
    (hbad : entry_tarihi e = none ∨ temiz_metin (e.title.getD []) = [] ∨
      temiz_metin (e.link.getD []) = []) :
    (∀ h ∈ tumunu_cek ora fm feeds gun limit sg now, h.entry ≠ e) ∧
      (∀ e' : Entry, ∀ t : Int, e'.published_parsed = some t → entry_tarihi e' = some t) ∧
      (∀ e' : Entry, e'.published_parsed = none → entry_tarihi e' = e'.updated_parsed) := by
  refine ⟨?_, ?_, ?_⟩
  · intro h hm he
    unfold tumunu_cek at hm
    have h1 := mem_tekrarlari_aux ((sortDesc_perm _).mem_iff.mp hm)
    unfold son_gunleri_filtrele at h1
    obtain ⟨hd, hbt, hlt, hb, hl⟩ := mem_raw_items (List.mem_filter.mp h1).1
    rw [he] at hd hbt hlt
    rcases hbad with h3 | h3 | h3
    · rw [h3] at hd
      exact Option.noConfusion hd
    · exact hb (by rw [hbt, h3])
    · exact hl (by rw [hlt, h3])
  · intro e' t hp
    unfold entry_tarihi
    rw [hp]
  · intro e' hp
    unfold entry_tarihi
    rw [hp]
    rcases hu : e'.updated_parsed with _ | t <;> simp

theorem C7_drop_bad_entries_witness : wHaber.entry ≠ wBad :=
  (C7_drop_bad_entries (fun s => s) (fun _ => []) [("A".toList, [wBad, wEntry])] 1 25
    false 1000 wBad (Or.inl (by decide))).1 wHaber (by decide)

end Rapor

namespace Rapor

/-- The right strip never lengthens a string. -/
theorem pyRstrip_length_le (s : Str) : (pyRstrip s).length ≤ s.length := by
  unfold pyRstrip
  have h : (s.reverse.dropWhile isSpace).length ≤ s.reverse.length :=
    List.Sublist.length_le (List.dropWhile_sublist isSpace)
  simpa using h

/-- C4 (amended): the summary `ozet_uret` returns at the default cap 420 never
exceeds 420 characters, and whenever the pre-truncation text exceeds the cap
the result ends with an ellipsis marker.  (The marker need not be unique and
raw entities can survive; see the counterexample.) -/
theorem C4_ozet_cap (ora fm : Str → Str) (e : Entry) (link : Str) (sg : Bool) :
    (ozet_uret ora fm e link 420 sg).length ≤ 420 ∧
      (420 < (temiz_metin (ozet_base ora fm e link sg)).length →
        ∃ s : Str, ozet_uret ora fm e link 420 sg = s ++ ['…']) := by
  unfold ozet_uret cap_ellipsis
  by_cases h : 420 < (temiz_metin (ozet_base ora fm e link sg)).length
  · rw [if_pos h]
    have h1 : (pyRstrip ((temiz_metin (ozet_base ora fm e link sg)).take (420 - 1))).length
        ≤ 420 - 1 := by
      refine le_trans (pyRstrip_length_le _) ?_
      exact List.length_take_le _ _
    constructor
    · simp only [List.length_append, List.length_cons, List.length_nil]
      omega
    · exact fun _ => ⟨_, rfl⟩
  · rw [if_neg h]
    exact ⟨by omega, fun hc => absurd hc h⟩

set_option maxRecDepth 8000 in
theorem C4_ozet_cap_witness :
    (ozet_uret unescape (fun _ => []) c4e [] 420 true).length ≤ 420 ∧
      ∃ s : Str, ozet_uret unescape (fun _ => []) c4e [] 420 true = s ++ ['…'] :=
  ⟨(C4_ozet_cap unescape (fun _ => []) c4e [] true).1,
    (C4_ozet_cap unescape (fun _ => []) c4e [] true).2 (by decide)⟩

set_option maxRecDepth 8000 in
/-- C4 counterexample: for the entry `c4e` (embedded summary `cS`, a
quadruply-escaped ampersand followed by text with an ellipsis at the cut
point) the pre-truncation text exceeds the cap, yet the returned summary ends
in TWO consecutive ellipsis markers and still contains the raw HTML entity
`&amp;` — refuting "ends with exactly one ellipsis marker and contains no raw
HTML entities".  The page-text oracle is `unescape` itself: for a markup-free
fragment the parser returns its text with character references decoded once. -/
theorem C4_counterexample :
    420 < (temiz_metin (ozet_base unescape (fun _ => []) c4e [] true)).length ∧
      ozet_uret unescape (fun _ => []) c4e [] 420 true = cR ∧
      cR = ("&amp;".toList ++ List.replicate 413 'a' ++ ['…']) ++ ['…'] ∧
      isSubstr "&amp;".toList cR = true :=
  ⟨by decide, by decide, by decide, by decide⟩

/-- C5: `ozet_uret` attempts the page-scrape fallback iff `sayfadan_getir` is
true and the tier-1 text is empty or shorter than 80 characters (the
emptiness disjunct is subsumed by the length test, second conjunct); whenever
the guard is false — in particular whenever `sayfadan_getir` is false — the
result does not depend on the fetch oracle, i.e. no page fetch is performed
by summary resolution. -/
theorem C5_fetch_guard (ora : Str → Str) (e : Entry) (link : Str) (m : Nat) (sg : Bool) :
    (ozet_fetch_attempted ora e sg = true ↔
      sg = true ∧ (html_to_text ora (ozet_raw e) = [] ∨
        (html_to_text ora (ozet_raw e)).length < 80)) ∧
      (ozet_fetch_attempted ora e sg =
        (sg && decide ((html_to_text ora (ozet_raw e)).length < 80))) ∧
      (ozet_fetch_attempted ora e sg = false →
        ∀ f g : Str → Str, ozet_uret ora f e link m sg = ozet_uret ora g e link m sg) := by
  refine ⟨?_, ?_, ?_⟩
  · unfold ozet_fetch_attempted
    cases sg <;> simp [List.isEmpty_iff]
  · unfold ozet_fetch_attempted
    by_cases ht : html_to_text ora (ozet_raw e) = []
    · simp [ht]
    · have hne : (html_to_text ora (ozet_raw e)).isEmpty = false := by
        simpa [List.isEmpty_iff] using ht
      rw [hne]
      simp
  · intro hguard f g
    unfold ozet_uret ozet_base
    rw [hguard]
    simp

theorem C5_fetch_guard_witness :
    ozet_uret (fun s => s) (fun _ => "XX".toList) wEntry "L".toList 420 false =
      ozet_uret (fun s => s) (fun _ => "YYYY".toList) wEntry "L".toList 420 false :=
  (C5_fetch_guard (fun s => s) wEntry "L".toList 420 false).2.2 (by decide)
    (fun _ => "XX".toList) (fun _ => "YYYY".toList)

/-- C10: when the page-scrape tier runs (the fetch guard is true), the fetched
text replaces the tier-1 text exactly when it is non-empty and strictly
longer; otherwise the tier-1 text stays the summary basis even though it was
short enough to trigger the fetch. -/
theorem C10_fetch_replace (ora f : Str → Str) (e : Entry) (link : Str) (sg : Bool)
    (hg : ozet_fetch_attempted ora e sg = true) :
    (ozet_base ora f e link sg =
      if f link ≠ [] ∧ (html_to_text ora (ozet_raw e)).length < (f link).length
      then f link else html_to_text ora (ozet_raw e)) ∧
      ((f link).length ≤ (html_to_text ora (ozet_raw e)).length →
        ozet_base ora f e link sg = html_to_text ora (ozet_raw e)) := by
  have hmain : ozet_base ora f e link sg =
      if f link ≠ [] ∧ (html_to_text ora (ozet_raw e)).length < (f link).length
      then f link else html_to_text ora (ozet_raw e) := by
    unfold ozet_base
    rw [hg]
    by_cases hc : f link ≠ [] ∧ (html_to_text ora (ozet_raw e)).length < (f link).length
    · rw [if_pos hc]
      simp [List.isEmpty_iff, hc.1, hc.2]
    · rw [if_neg hc]
      rcases not_and_or.mp hc with hc1 | hc2
      · simp [List.isEmpty_iff, not_not.mp hc1]
      · simp [List.isEmpty_iff, hc2]
  refine ⟨hmain, fun hle => ?_⟩
  rw [hmain, if_neg]
  intro hc
  omega

theorem C10_fetch_replace_witness :
    ozet_base (fun s => s) (fun _ => []) wBad "L".toList true =
      html_to_text (fun s => s) (ozet_raw wBad) :=
  (C10_fetch_replace (fun s => s) (fun _ => []) wBad "L".toList true (by decide)).2
    (by decide)

end Rapor

namespace Rapor

/-- C6 (spec-modelled): with no AI credential configured, summary resolution
never consults the external endpoint — the result is oblivious to the
endpoint oracle and equals the tier-1/2 summary computed by `ozet_uret`; with
a credential configured and a sufficiently long article body available, a
successful endpoint call's non-empty rewritten text becomes the summary
(cleaned and capped). -/
theorem C6_ai_tier (ora fm : Str → Str) (credential : Option Str)
    (endpoint : Str → Option Str) (body : Option Str) (minBody : Nat) (e : Entry)
    (link : Str) (m : Nat) (sg : Bool) :
    ((credential = none →
      resolve_summary_ai ora fm credential endpoint body minBody e link m sg =
        ozet_uret ora fm e link m sg) ∧
      (∀ ep1 ep2 : Str → Option Str,
        resolve_summary_ai ora fm none ep1 body minBody e link m sg =
          resolve_summary_ai ora fm none ep2 body minBody e link m sg)) ∧
      (∀ c b t : Str, credential = some c → body = some b →
        minBody ≤ b.length → endpoint b = some t → t ≠ [] →
        resolve_summary_ai ora fm credential endpoint body minBody e link m sg =
          cap_ellipsis m (temiz_metin t)) := by
  refine ⟨⟨?_, ?_⟩, ?_⟩
  · intro hc
    subst hc
    rfl
  · intro ep1 ep2
    rfl
  · intro c b t hc hb hlen hep hne
    subst hc
    subst hb
    have h3 : ai_tier (some c) endpoint (some b) minBody = t := by
      show (if minBody ≤ b.length then (endpoint b).getD [] else []) = t
      rw [if_pos hlen, hep]
      rfl
    unfold resolve_summary_ai
    rw [h3, if_neg hne]

theorem C6_ai_tier_witness :
    (resolve_summary_ai (fun s => s) (fun _ => []) none (fun _ => some "IGNORED".toList)
        none 10 wEntry "L".toList 420 true =
      ozet_uret (fun s => s) (fun _ => []) wEntry "L".toList 420 true) ∧
      resolve_summary_ai (fun s => s) (fun _ => []) (some "K".toList)
          (fun _ => some "Good.".toList) (some (List.replicate 20 'x')) 10 wEntry
          "L".toList 420 true = cap_ellipsis 420 (temiz_metin "Good.".toList) :=
  ⟨((C6_ai_tier (fun s => s) (fun _ => []) none (fun _ => some "IGNORED".toList) none 10
      wEntry "L".toList 420 true).1).1 rfl,
    (C6_ai_tier (fun s => s) (fun _ => []) (some "K".toList)
      (fun _ => some "Good.".toList) (some (List.replicate 20 'x')) 10 wEntry
      "L".toList 420 true).2 "K".toList (List.replicate 20 'x') "Good.".toList rfl rfl
      (by decide) rfl (by decide)⟩

/-- C8 (amended): image failure is fail-soft.  The rendered output has exactly
one card per item whatever the image oracles do — an image failure never drops
the item — and each listed failure mode (fetch/status error, non-image content
type, payload over the 6 MiB ceiling, failed decode verification) makes
`gorsel_indir_tmp` yield no image.  The ceiling, however, is checked only
after the whole body has been read (see the counterexample). -/
theorem C8_image_fail_soft (verifyOk : List Nat → Bool) (urlOf : Entry → Str → Str)
    (respOf : Str → ImgResponse) (addOk : Bool) (items : List Haber) (url : Str)
    (resp : ImgResponse) :
    ((docx_cards verifyOk urlOf respOf addOk items).map cardCore =
      items.map haberCore) ∧
      (resp.ok = false → gorsel_indir_tmp verifyOk url resp = none) ∧
      (isSubstr "image".toList (lowerStr (resp.ctype.getD [])) = false →
        gorsel_indir_tmp verifyOk url resp = none) ∧
      (6 * 1024 * 1024 < (resp.chunks.flatten).length →
        gorsel_indir_tmp verifyOk url resp = none) ∧
      (verifyOk resp.chunks.flatten = false →
        gorsel_indir_tmp verifyOk url resp = none) := by
  refine ⟨?_, ?_, ?_, ?_, ?_⟩
  · simp [docx_cards, cardCore, haberCore, List.map_map]
  all_goals intro h
  all_goals unfold gorsel_indir_tmp
  all_goals split_ifs <;> simp_all

theorem C8_image_fail_soft_witness :
    ((docx_cards (fun _ => true) (fun _ _ => "u".toList) (fun _ => badResp) true
      [wHaber]).map cardCore = [wHaber].map haberCore) ∧
      gorsel_indir_tmp (fun _ => true) "u".toList badResp = none :=
  ⟨(C8_image_fail_soft (fun _ => true) (fun _ _ => "u".toList) (fun _ => badResp) true
      [wHaber] "u".toList badResp).1,
    (C8_image_fail_soft (fun _ => true) (fun _ _ => "u".toList) (fun _ => badResp) true
      [wHaber] "u".toList badResp).2.2.1 (by decide)⟩

/-- C8 counterexample: a 6 MiB + 1 byte payload exceeds the ceiling, yet the
download consumes the entire body — `r.content` reads all 6291457 bytes, so
the read is NOT aborted once the ceiling is passed — before the size check
rejects the image (which stays fail-soft: `gorsel_indir_tmp` yields no
image). -/
theorem C8_counterexample :
    6 * 1024 * 1024 < (bigResp.chunks.flatten).length ∧
      gorsel_bytes_read "u".toList bigResp = (bigResp.chunks.flatten).length ∧
      gorsel_bytes_read "u".toList bigResp = 6291457 ∧
      gorsel_indir_tmp (fun _ => true) "u".toList bigResp = none := by
  have hflat : bigResp.chunks.flatten = List.replicate 6291457 0 := by
    show ([List.replicate 6291457 0] : List (List Nat)).flatten = List.replicate 6291457 0
    rw [List.flatten_cons, List.flatten_nil, List.append_nil]
  have hlen : (bigResp.chunks.flatten).length = 6291457 := by
    rw [hflat, List.length_replicate]
  have hbr : gorsel_bytes_read "u".toList bigResp = 6291457 := by
    unfold gorsel_bytes_read
    rw [if_neg (by decide), if_neg (by decide), if_neg (by decide)]
    exact hlen
  refine ⟨by rw [hlen]; norm_num, by rw [hbr, hlen], hbr, ?_⟩
  unfold gorsel_indir_tmp
  rw [if_neg (by decide), if_neg (by decide), if_neg (by decide),
    if_neg (by rw [hflat]; exact List.length_pos.mp (by rw [List.length_replicate]; omega)),
    if_pos (by rw [hlen]; norm_num)]

/-- C9 (amended): an accepted image is stored as exactly the downloaded
payload bytes — no re-encoding to a canonical format at a fixed quality
occurs — and the stored artifact's extension follows the response content
type: `.png` when it mentions png, else `.webp` when it mentions webp, else
`.jpg`. -/
theorem C9_no_reencode (verifyOk : List Nat → Bool) (url : Str) (resp : ImgResponse)
    (ext : Str) (bytes : List Nat)
    (h : gorsel_indir_tmp verifyOk url resp = some (ext, bytes)) :
    bytes = resp.chunks.flatten ∧
      ext = (if isSubstr "png".toList (lowerStr (resp.ctype.getD [])) = true
        then ".png".toList
        else if isSubstr "webp".toList (lowerStr (resp.ctype.getD [])) = true
        then ".webp".toList else ".jpg".toList) := by
  unfold gorsel_indir_tmp at h
  split_ifs at h <;> simp_all

theorem C9_no_reencode_witness :
    ([137, 80, 78, 71, 1] : List Nat) = pngResp.chunks.flatten ∧
      ".png".toList = (if isSubstr "png".toList (lowerStr (pngResp.ctype.getD [])) = true
        then ".png".toList
        else if isSubstr "webp".toList (lowerStr (pngResp.ctype.getD [])) = true
        then ".webp".toList else ".jpg".toList) :=
  C9_no_reencode (fun _ => true) "u".toList pngResp ".png".toList [137, 80, 78, 71, 1]
    (by decide)

/-- C9 counterexample: two accepted downloads are stored in different formats
(`.png` and `.webp`), each as its original payload bytes — there is no single
canonical storage format and the artifact is the downloaded data itself, not a
re-encoding. -/
theorem C9_counterexample :
    gorsel_indir_tmp (fun _ => true) "u".toList pngResp =
      some (".png".toList, [137, 80, 78, 71, 1]) ∧
      gorsel_indir_tmp (fun _ => true) "u".toList webpResp =
        some (".webp".toList, [82, 73, 70, 70, 2]) ∧
      ".png".toList ≠ ".webp".toList :=
  ⟨by decide, by decide, by decide⟩

end Rapor
